import Mathlib

/-!
Shallow embedding of the expense-extraction pipeline of the
`financial-ai-bot` repository (TypeScript), covering:

- `src/constants/expense-categories.ts` (category vocabulary),
- `ExpenseExtractorAgent` (`execute`, `extractExpensesWithLLM`,
  `fallbackExtraction`, `extractDescriptionFromContext`,
  `categorizeByKeywords`, `calculateConfidence`),
- `AgentService.extractExpenses` together with the persistence-path
  validation of `ExpenseService.createExpense`.

JavaScript numbers are modelled as exact rationals; NaN is modelled as
`none` in `Option ℚ`.  Strings are modelled as `List Char`.  All
definitions are fuel-based or structurally recursive so that concrete
inputs evaluate by kernel reduction.
-/

attribute [local semireducible] Rat.add Rat.sub Rat.mul Rat.inv Rat.ofScientific

namespace FinBot

/-- Strings of the embedded program are lists of characters. -/
abbrev Str := List Char

/-- Converts a Lean string literal to the embedded string type. -/
def lit (s : String) : Str := s.toList

/-- Models the JavaScript whitespace class `\s` (restricted to the code
points that occur in this code base: space, tab, LF, CR, VT, FF, NBSP). -/
def isWs (c : Char) : Bool :=
  c == ' ' || c == '\t' || c == '\n' || c == '\r' ||
  c.toNat == 11 || c.toNat == 12 || c.toNat == 160

/-- Numeric value of a decimal digit character. -/
def digitVal (c : Char) : ℕ := c.toNat - 48

/-- Models `String.prototype.toLowerCase` per character for the ASCII and
Latin-1 letters used by this code base. -/
def jsToLowerChar (c : Char) : Char :=
  if 65 ≤ c.toNat ∧ c.toNat ≤ 90 then Char.ofNat (c.toNat + 32)
  else if 192 ≤ c.toNat ∧ c.toNat ≤ 222 ∧ c.toNat ≠ 215 then Char.ofNat (c.toNat + 32)
  else c

/-- Models `String.prototype.toUpperCase` per character for the ASCII and
Latin-1 letters used by this code base. -/
def jsToUpperChar (c : Char) : Char :=
  if 97 ≤ c.toNat ∧ c.toNat ≤ 122 then Char.ofNat (c.toNat - 32)
  else if 224 ≤ c.toNat ∧ c.toNat ≤ 254 ∧ c.toNat ≠ 247 then Char.ofNat (c.toNat - 32)
  else c

/-- Models `String.prototype.toLowerCase`. -/
def jsToLower (s : Str) : Str := s.map jsToLowerChar

/-- Models `String.prototype.trim`. -/
def jsTrim (s : Str) : Str :=
  ((s.dropWhile isWs).reverse.dropWhile isWs).reverse

/-- Boolean test that `pre` is a prefix of `s`. -/
def strStarts : Str → Str → Bool
  | [], _ => true
  | _ :: _, [] => false
  | p :: pt, c :: ct => p == c && strStarts pt ct

/-- Models `String.prototype.includes`: `needle` occurs as a contiguous
substring of the haystack. -/
def containsSub : Str → Str → Bool
  | [], needle => needle.isEmpty
  | hs@(_ :: t), needle => strStarts needle hs || containsSub t needle

/-- Models `Array.prototype.join` with a separator. -/
def joinSep (sep : Str) : List Str → Str
  | [] => []
  | [x] => x
  | x :: xs => x ++ sep ++ joinSep sep xs

/-- Models `s.charAt(0).toUpperCase() + s.slice(1)`. -/
def capitalizeJs : Str → Str
  | [] => []
  | c :: t => jsToUpperChar c :: t

/-- Fuelled splitting of a string into maximal whitespace-free words,
modelling `s.split(/\s+/)` on a trimmed string (empty pieces cannot occur
after the `length > 2` filter applied by the caller). -/
def wordsF : Nat → Str → List Str
  | 0, _ => []
  | _ + 1, [] => []
  | fuel + 1, c :: t =>
    if isWs c then wordsF fuel t
    else (c :: t.takeWhile (fun d => !(isWs d))) :: wordsF fuel (t.dropWhile (fun d => !(isWs d)))

/-- Splits a string into whitespace-separated words. -/
def jsWords (s : Str) : List Str := wordsF (s.length + 1) s

/-- Fuelled decimal rendering of a natural number. -/
def natDigitsF : Nat → Nat → Str
  | 0, _ => []
  | fuel + 1, n =>
    if n < 10 then [Char.ofNat (48 + n)]
    else natDigitsF fuel (n / 10) ++ [Char.ofNat (48 + n % 10)]

/-- Decimal rendering of a natural number. -/
def natDigits (n : ℕ) : Str := natDigitsF (n + 1) n

/-- Two-digit zero-padded rendering. -/
def pad2 (n : ℕ) : Str := if n < 10 then '0' :: natDigits n else natDigits n

/-- Models `Number.prototype.toFixed(2)` for the nonnegative amounts this
agent formats (ES rounds to the nearest multiple of 1/100, ties away from
zero for positive input). -/
def toFixed2 (q : ℚ) : Str :=
  let n := (Int.floor (q * 100 + 1 / 2)).toNat
  natDigits (n / 100) ++ '.' :: pad2 (n % 100)

/-- Value of a string of decimal digits. -/
def digitsToNat (ds : Str) : ℕ := ds.foldl (fun a c => a * 10 + digitVal c) 0

/-- Power of ten as a rational. -/
def pow10 (n : ℕ) : ℚ := (10 : ℚ) ^ n

/-- Applies a decimal exponent to a rational. -/
def applyExp (q : ℚ) (e : ℤ) : ℚ :=
  if 0 ≤ e then q * pow10 e.toNat else q / pow10 (-e).toNat

/-- Parses the exponent part `e`/`E` with optional sign of a JavaScript
decimal literal; returns the exponent and the rest, consuming nothing when
no well-formed exponent follows. -/
def parseExpPart (cs : Str) : ℤ × Str :=
  match cs with
  | e :: rest =>
    if e == 'e' || e == 'E' then
      match rest with
      | '-' :: r2 =>
        let ds := r2.takeWhile Char.isDigit
        if ds.isEmpty then (0, cs) else (-(digitsToNat ds : ℤ), r2.drop ds.length)
      | '+' :: r2 =>
        let ds := r2.takeWhile Char.isDigit
        if ds.isEmpty then (0, cs) else ((digitsToNat ds : ℤ), r2.drop ds.length)
      | r2 =>
        let ds := r2.takeWhile Char.isDigit
        if ds.isEmpty then (0, cs) else ((digitsToNat ds : ℤ), r2.drop ds.length)
    else (0, cs)
  | [] => (0, [])

/-- Numeric value from sign, integer digits, fraction digits and exponent. -/
def decValue (sgn : ℚ) (ids fds : Str) (e : ℤ) : ℚ :=
  sgn * applyExp ((digitsToNat ids : ℚ) + (digitsToNat fds : ℚ) / pow10 fds.length) e

/-- Parses the longest prefix of `cs` that is a JavaScript decimal literal
(`StrDecimalLiteral` without `Infinity`, which cannot be represented as a
rational and is out of scope for this code base); returns the value and
the unconsumed rest. -/
def parseDecCore (cs : Str) : Option (ℚ × Str) :=
  let p := match cs with
    | '-' :: r => ((-1 : ℚ), r)
    | '+' :: r => ((1 : ℚ), r)
    | _ => ((1 : ℚ), cs)
  let sgn := p.1
  let cs1 := p.2
  let ids := cs1.takeWhile Char.isDigit
  let cs2 := cs1.drop ids.length
  match cs2 with
  | '.' :: r =>
    let fds := r.takeWhile Char.isDigit
    let cs3 := r.drop fds.length
    if ids.isEmpty && fds.isEmpty then none
    else
      let ep := parseExpPart cs3
      some (decValue sgn ids fds ep.1, ep.2)
  | _ =>
    if ids.isEmpty then none
    else
      let ep := parseExpPart cs2
      some (decValue sgn ids [] ep.1, ep.2)

/-- Models the global `parseFloat`: skips leading whitespace and parses the
longest numeric prefix; `none` models NaN. -/
def jsParseFloat (s : Str) : Option ℚ :=
  (parseDecCore (s.dropWhile isWs)).map (·.1)

/-- Models `ToNumber` applied to a string: trimmed empty string is 0, and
otherwise the whole trimmed string must be a numeric literal; `none`
models NaN. -/
def jsToNumberStr (s : Str) : Option ℚ :=
  let t := jsTrim s
  if t.isEmpty then some 0
  else
    match parseDecCore t with
    | some (q, rest) => if rest.isEmpty then some q else none
    | none => none

/-- The closed category vocabulary of `expense-categories.ts`
(`VALID_EXPENSE_CATEGORIES`). -/
def VALID_EXPENSE_CATEGORIES : List Str :=
  [lit "alimentação", lit "transporte", lit "saúde", lit "educação",
   lit "lazer", lit "moradia", lit "vestuário", lit "serviços",
   lit "combustível", lit "farmácia", lit "supermercado",
   lit "restaurante", lit "outros"]

/-- Models `isValidExpenseCategory`: case-insensitive membership test. -/
def isValidExpenseCategory (category : Str) : Bool :=
  VALID_EXPENSE_CATEGORIES.contains (jsToLower category)

/-- Distinguishes the error classes of `middleware/error-handler.ts`:
`ValidationError` is a subclass carrying the name "ValidationError", while
a plain `new Error(...)` has the generic kind. -/
inductive JsErrorKind where
  | validationError
  | genericError
deriving DecidableEq

/-- A thrown JavaScript error: its class kind and its message. -/
structure JsError where
  kind : JsErrorKind
  message : Str

/-- Models `normalizeExpenseCategory`: lower-cases and trims, then requires
membership in the vocabulary; on failure it throws a plain `Error` (not a
`ValidationError`) whose message names the rejected value and lists all
valid categories. -/
def normalizeExpenseCategory (category : Str) : Except JsError Str :=
  let normalized := jsTrim (jsToLower category)
  if isValidExpenseCategory normalized then Except.ok normalized
  else
    Except.error
      ⟨JsErrorKind.genericError,
       lit "Categoria inválida: \"" ++ category ++ lit "\". Categorias válidas: " ++
         joinSep (lit ", ") VALID_EXPENSE_CATEGORIES⟩

/-- Projects the error kind of a result, for stating error-class facts. -/
def errKindOf (r : Except JsError Str) : Option JsErrorKind :=
  match r with
  | Except.error e => some e.kind
  | Except.ok _ => none

/-- JSON values, the possible results of `JSON.parse`. -/
inductive Json where
  | null : Json
  | bool (b : Bool) : Json
  | num (q : ℚ) : Json
  | str (s : Str) : Json
  | arr (elems : List Json) : Json
  | obj (fields : List (Str × Json)) : Json

/-- Fuelled digits of the fractional part of a nonnegative rational below 1
(exact for terminating decimals, which covers every value produced by the
JSON number grammar). -/
def fracDigitsF : Nat → ℚ → Str
  | 0, _ => []
  | fuel + 1, r =>
    if r = 0 then []
    else
      let r10 := r * 10
      let d := Int.floor r10
      Char.ofNat (48 + d.toNat) :: fracDigitsF fuel (r10 - (d : ℚ))

/-- Decimal rendering of a nonnegative rational, as `String(number)`
renders the doubles occurring in this pipeline. -/
def qToJsStringNN (q : ℚ) : Str :=
  let f := q - (Int.floor q : ℚ)
  if f = 0 then natDigits (Int.floor q).toNat
  else natDigits (Int.floor q).toNat ++ '.' :: fracDigitsF 40 f

/-- Models `String(number)` for the rationals standing in for doubles. -/
def qToJsString (q : ℚ) : Str :=
  if q < 0 then '-' :: qToJsStringNN (-q) else qToJsStringNN q

/-- Fuelled form of `String(value)` on JSON-parsed values
(`Array.prototype.join` turns null elements into empty pieces and nested
values into their string forms; plain objects print as
"[object Object]"). -/
def jsStringOfJsonF : Nat → Json → Str
  | _, Json.null => lit "null"
  | _, Json.bool true => lit "true"
  | _, Json.bool false => lit "false"
  | _, Json.num q => qToJsString q
  | _, Json.str s => s
  | 0, Json.arr _ => []
  | fuel + 1, Json.arr es =>
    joinSep (lit ",")
      (es.map (fun e =>
        match e with
        | Json.null => []
        | x => jsStringOfJsonF fuel x))
  | _, Json.obj _ => lit "[object Object]"

/-- Models `String(value)` on JSON-parsed values.  The fuel bounds only
the array nesting depth; any value produced by `JSON.parse` has depth
bounded by the response length, far below this constant. -/
def jsStringOfJson (j : Json) : Str := jsStringOfJsonF 1000000 j

/-- Property lookup on a JSON object; with duplicate keys `JSON.parse`
keeps the last occurrence, hence the reversed search.  `none` models
`undefined`. -/
def jsGet (fields : List (Str × Json)) (k : Str) : Option Json :=
  (fields.reverse.find? (fun p => p.1 == k)).map (·.2)

/-- JavaScript truthiness of a JSON value. -/
def jsTruthy : Json → Bool
  | Json.null => false
  | Json.bool b => b
  | Json.num q => !(q == 0)
  | Json.str s => !s.isEmpty
  | Json.arr _ => true
  | Json.obj _ => true

/-- Models `v || d` where `v` may be `undefined` (`none`). -/
def jsOr (v : Option Json) (d : Json) : Json :=
  match v with
  | some j => if jsTruthy j then j else d
  | none => d

/-- Models `ToNumber` on JSON-parsed values (`none` is NaN; arrays convert
through their joined string form, plain objects to NaN). -/
def jsToNumber : Json → Option ℚ
  | Json.null => some 0
  | Json.bool b => some (if b then 1 else 0)
  | Json.num q => some q
  | Json.str s => jsToNumberStr s
  | Json.arr es => jsToNumberStr (jsStringOfJson (Json.arr es))
  | Json.obj _ => none

/-- Models `Math.max` on two numbers with NaN propagation. -/
def jsMaxN (a b : Option ℚ) : Option ℚ :=
  match a, b with
  | some x, some y => some (max x y)
  | _, _ => none

/-- Models `Math.min` on two numbers with NaN propagation. -/
def jsMinN (a b : Option ℚ) : Option ℚ :=
  match a, b with
  | some x, some y => some (min x y)
  | _, _ => none

/-- Models `x + y` on numbers with NaN propagation. -/
def jsAddN (a b : Option ℚ) : Option ℚ :=
  match a, b with
  | some x, some y => some (x + y)
  | _, _ => none

/-- Models `x / y` on numbers with NaN propagation (never called with a
zero divisor in this pipeline). -/
def jsDivN (a b : Option ℚ) : Option ℚ :=
  match a, b with
  | some x, some y => some (x / y)
  | _, _ => none

/-- Models `Math.round`: nearest integer, ties toward positive infinity. -/
def jsRoundN (a : Option ℚ) : Option ℚ :=
  a.map (fun q => ((Int.floor (q + 1 / 2) : ℤ) : ℚ))

/-- Whitespace accepted between JSON tokens by `JSON.parse`. -/
def isJsonWs (c : Char) : Bool :=
  c == ' ' || c == '\t' || c == '\n' || c == '\r'

/-- Hexadecimal digit value, by code-point ranges. -/
def hexVal (c : Char) : Option ℕ :=
  let n := c.toNat
  if 48 ≤ n ∧ n ≤ 57 then some (n - 48)
  else if 97 ≤ n ∧ n ≤ 102 then some (n - 87)
  else if 65 ≤ n ∧ n ≤ 70 then some (n - 55)
  else none

/-- Table of the single-character JSON string escapes. -/
def escTable : List (Char × Char) :=
  [('"', '"'), ('\\', '\\'), ('/', '/'), ('b', Char.ofNat 8), ('f', Char.ofNat 12),
   ('n', '\n'), ('r', '\r'), ('t', '\t')]

/-- Looks up a single-character JSON string escape. -/
def escChar (c : Char) : Option Char :=
  (escTable.find? (fun p => p.1 == c)).map (·.2)

/-- Parses the body of a JSON string after the opening quote; returns the
decoded contents and the rest after the closing quote. -/
def parseStringBody : Str → Option (Str × Str)
  | [] => none
  | '"' :: rest => some ([], rest)
  | '\\' :: 'u' :: h1 :: h2 :: h3 :: h4 :: r =>
    (match hexVal h1, hexVal h2, hexVal h3, hexVal h4 with
     | some a, some b, some c, some d =>
       (parseStringBody r).map
         (fun p => (Char.ofNat (((a * 16 + b) * 16 + c) * 16 + d) :: p.1, p.2))
     | _, _, _, _ => none)
  | '\\' :: e :: r =>
    (match escChar e with
     | some c => (parseStringBody r).map (fun p => (c :: p.1, p.2))
     | none => none)
  | c :: rest => (parseStringBody rest).map (fun p => (c :: p.1, p.2))

/-- Parses a JSON number (strict grammar: no leading zeros, mandatory
digits around the decimal point and in the exponent). -/
def parseJsonNumber (cs : Str) : Option (ℚ × Str) :=
  let p := match cs with
    | '-' :: r => ((true : Bool), r)
    | _ => ((false : Bool), cs)
  let neg := p.1
  let cs1 := p.2
  let ids := cs1.takeWhile Char.isDigit
  if ids.isEmpty then none
  else if 1 < ids.length && ids.headD '0' == '0' then none
  else
    let cs2 := cs1.drop ids.length
    let q0 : ℚ := (digitsToNat ids : ℚ)
    let fr : Option (ℚ × Str) :=
      match cs2 with
      | '.' :: r =>
        let fds := r.takeWhile Char.isDigit
        if fds.isEmpty then none
        else some (q0 + (digitsToNat fds : ℚ) / pow10 fds.length, r.drop fds.length)
      | _ => some (q0, cs2)
    match fr with
    | none => none
    | some (q1, cs3) =>
      match cs3 with
      | e :: rest =>
        if e == 'e' || e == 'E' then
          let p2 := match rest with
            | '-' :: r2 => ((true : Bool), r2)
            | '+' :: r2 => ((false : Bool), r2)
            | _ => ((false : Bool), rest)
          let eds := p2.2.takeWhile Char.isDigit
          if eds.isEmpty then none
          else
            let ev : ℤ := if p2.1 then -(digitsToNat eds : ℤ) else (digitsToNat eds : ℤ)
            some ((if neg then -1 else 1) * applyExp q1 ev, p2.2.drop eds.length)
        else some ((if neg then -1 else 1) * q1, cs3)
      | [] => some ((if neg then -1 else 1) * q1, [])

/-- Pending work of the recursive-descent JSON reader: a value to read, or
the members of a partially read object or array. -/
inductive ParseTask where
  | value (cs : Str) : ParseTask
  | objBody (cs : Str) (acc : List (Str × Json)) : ParseTask
  | arrBody (cs : Str) (acc : List Json) : ParseTask

/-- Fuelled recursive-descent JSON reader, modelling `JSON.parse`; a
single function over `ParseTask` so that it reduces by structural
recursion on the fuel. -/
def parseJ : Nat → ParseTask → Option (Json × Str)
  | 0, _ => none
  | fuel + 1, ParseTask.value cs0 =>
    (match cs0.dropWhile isJsonWs with
     | [] => none
     | '{' :: rest =>
       (match rest.dropWhile isJsonWs with
        | '}' :: r => some (Json.obj [], r)
        | cs1 => parseJ fuel (ParseTask.objBody cs1 []))
     | '[' :: rest =>
       (match rest.dropWhile isJsonWs with
        | ']' :: r => some (Json.arr [], r)
        | cs1 => parseJ fuel (ParseTask.arrBody cs1 []))
     | '"' :: rest => (parseStringBody rest).map (fun p => (Json.str p.1, p.2))
     | 't' :: 'r' :: 'u' :: 'e' :: rest => some (Json.bool true, rest)
     | 'f' :: 'a' :: 'l' :: 's' :: 'e' :: rest => some (Json.bool false, rest)
     | 'n' :: 'u' :: 'l' :: 'l' :: rest => some (Json.null, rest)
     | cs => (parseJsonNumber cs).map (fun p => (Json.num p.1, p.2)))
  | fuel + 1, ParseTask.objBody cs acc =>
    (match cs with
     | '"' :: rest =>
       (match parseStringBody rest with
        | none => none
        | some (k, r1) =>
          match r1.dropWhile isJsonWs with
          | ':' :: r2 =>
            (match parseJ fuel (ParseTask.value r2) with
             | none => none
             | some (v, r3) =>
               match r3.dropWhile isJsonWs with
               | ',' :: r4 => parseJ fuel (ParseTask.objBody (r4.dropWhile isJsonWs) ((k, v) :: acc))
               | '}' :: r4 => some (Json.obj ((k, v) :: acc).reverse, r4)
               | _ => none)
          | _ => none)
     | _ => none)
  | fuel + 1, ParseTask.arrBody cs acc =>
    (match parseJ fuel (ParseTask.value cs) with
     | none => none
     | some (v, r1) =>
       match r1.dropWhile isJsonWs with
       | ',' :: r2 => parseJ fuel (ParseTask.arrBody (r2.dropWhile isJsonWs) (v :: acc))
       | ']' :: r2 => some (Json.arr (v :: acc).reverse, r2)
       | _ => none)

/-- Models `JSON.parse`: the whole input, up to surrounding whitespace,
must be one JSON value; `none` models a thrown `SyntaxError`.  One unit
of fuel per input character is ample because every recursive step
consumes input. -/
def jsonParse (s : Str) : Option Json :=
  match parseJ (s.length + 1) (ParseTask.value s) with
  | some (v, rest) => if (rest.dropWhile isJsonWs).isEmpty then some v else none
  | none => none

/-- An extracted expense candidate.  The agent copies the (coerced) field
values through unchanged, so description, category and currency keep
whatever JSON value the model produced; `confidence` is a number where
`none` models NaN. -/
structure Candidate where
  description : Json
  amount : ℚ
  category : Json
  currency : Json
  confidence : Option ℚ

/-- Models `parseFloat(String(expense.amount)) || 0` on the looked-up
`amount` property (`none` is `undefined`, which stringifies to
"undefined"): an unparsable amount (NaN) and a parsed 0 both yield 0. -/
def coerceAmount (v : Option Json) : ℚ :=
  match jsParseFloat (match v with
    | some j => jsStringOfJson j
    | none => lit "undefined") with
  | some q => q
  | none => 0

/-- Models `Math.min(Math.max(expense.confidence || 0.8, 0), 1)`. -/
def coerceConfidence (v : Option Json) : Option ℚ :=
  jsMinN (jsMaxN (jsToNumber (jsOr v (Json.num (4 / 5)))) (some 0)) (some 1)

/-- Per-candidate field coercion of the model-response path
(`extractExpensesWithLLM`'s `.map` callback). -/
def coerceFields (fs : List (Str × Json)) : Candidate :=
  { description := jsOr (jsGet fs (lit "description")) (Json.str [])
    amount := coerceAmount (jsGet fs (lit "amount"))
    category := jsOr (jsGet fs (lit "category")) (Json.str (lit "outros"))
    currency := jsOr (jsGet fs (lit "currency")) (Json.str (lit "BRL"))
    confidence := coerceConfidence (jsGet fs (lit "confidence")) }

/-- Property table of one element of the `expenses` array: property access
on `null` throws a `TypeError` (`none`), objects expose their members, and
every other JSON value exposes none of the accessed property names. -/
def elementFields : Json → Option (List (Str × Json))
  | Json.null => none
  | Json.obj fs => some fs
  | _ => some []

/-- Coerces every element of the `expenses` array; `none` when the map
callback throws (a `null` element), which the agent catches by falling
back to heuristic extraction. -/
def coerceAll : List Json → Option (List Candidate)
  | [] => some []
  | e :: t =>
    match elementFields e with
    | none => none
    | some fs => (coerceAll t).map (coerceFields fs :: ·)

/-- Models `.replace(/^```json\s*/, "")`: removes one leading literal
three-backtick-json fence and the whitespace after it. -/
def stripLeadingFence (cs : Str) : Str :=
  if strStarts (lit "```json") cs then (cs.drop 7).dropWhile isWs else cs

/-- Models `.replace(/\s*```$/, "")`: removes one trailing three-backtick
fence and the whitespace run before it. -/
def stripTrailingFence (cs : Str) : Str :=
  let r := cs.reverse
  if strStarts (lit "```") r then ((r.drop 3).dropWhile isWs).reverse else cs

/-- Reads the `expenses` property and requires it to be an array,
modelling the `!parsedResponse.expenses || !Array.isArray(...)` guard (a
non-object parse result has no such property and also fails the guard). -/
def getExpenses : Json → Option (List Json)
  | Json.obj fs =>
    (match jsGet fs (lit "expenses") with
     | some (Json.arr es) => some es
     | _ => none)
  | _ => none

/-- Model-response path of `extractExpensesWithLLM`: trim, strip code
fences, `JSON.parse`, check the `expenses` array, coerce each candidate.
`none` means this path failed and the agent falls back to heuristic
extraction. -/
def parseModelExpenses (response : Str) : Option (List Candidate) :=
  let cleanResponse := stripTrailingFence (stripLeadingFence (jsTrim response))
  match jsonParse cleanResponse with
  | none => none
  | some parsed =>
    match getExpenses parsed with
    | none => none
    | some elems => coerceAll elems

/-- Greedy digits with an optional two-decimal tail, the `\d+(?:[.,]\d{2})?`
part of the money regex. -/
def moneyNumTail (cs : Str) : Option Str :=
  match cs.takeWhile Char.isDigit with
  | [] => none
  | ds =>
    match cs.drop ds.length with
    | s :: a :: b :: _ =>
      if (s == '.' || s == ',') && a.isDigit && b.isDigit then some (ds ++ [s, a, b])
      else some ds
    | _ => some ds

/-- Match of `/(?:R\$\s*)?(\d+(?:[.,]\d{2})?)/` anchored at the current
position; when the optional `R$` prefix is present but no digits follow,
the regex backtracks to matching plain digits at the same position, which
fails on the letter `R`. -/
def matchMoneyAt (cs : Str) : Option Str :=
  match cs with
  | 'R' :: '$' :: r0 =>
    let ws := r0.takeWhile isWs
    (match moneyNumTail (r0.drop ws.length) with
     | some m => some ('R' :: '$' :: (ws ++ m))
     | none => none)
  | _ => moneyNumTail cs

/-- Fuelled left-to-right scan producing the gap pieces of
`text.split(moneyRegex)` and the match pieces of `text.match(moneyRegex)`
in one pass. -/
def scanMoneyF : Nat → Str → List Str × List Str
  | 0, cs => ([cs], [])
  | _ + 1, [] => ([[]], [])
  | fuel + 1, cs@(c :: rest) =>
    match matchMoneyAt cs with
    | some m =>
      let pr := scanMoneyF fuel (cs.drop m.length)
      ([] :: pr.1, m :: pr.2)
    | none =>
      let pr := scanMoneyF fuel rest
      (match pr.1 with
       | p :: ps => (c :: p) :: ps
       | [] => [[c]], pr.2)

/-- Gap pieces and matches of the money regex over the whole text. -/
def scanMoney (text : Str) : List Str × List Str :=
  scanMoneyF (text.length + 1) text

/-- Models `match.replace(/[R$\s]/g, "").replace(",", ".")`. -/
def replaceFirstComma : Str → Str
  | [] => []
  | c :: t => if c == ',' then '.' :: t else c :: replaceFirstComma t

/-- Cleans one money match before `parseFloat`. -/
def cleanMoneyMatch (m : Str) : Str :=
  replaceFirstComma (m.filter (fun c => !(c == 'R' || c == '$' || isWs c)))

/-- The ordered description keyword list of
`extractDescriptionFromContext`. -/
def descriptionKeywords : List Str :=
  [lit "almoço", lit "jantar", lit "lanche", lit "comida", lit "restaurante",
   lit "padaria", lit "uber", lit "taxi", lit "ônibus", lit "metro",
   lit "gasolina", lit "combustível", lit "médico", lit "hospital",
   lit "farmácia", lit "remédio", lit "consulta", lit "supermercado",
   lit "mercado", lit "açougue", lit "cinema", lit "teatro", lit "show",
   lit "festa", lit "luz", lit "água", lit "gás", lit "internet",
   lit "aluguel", lit "roupa", lit "calçado", lit "loja", lit "shopping"]

/-- Models `extractDescriptionFromContext`: first matching keyword
capitalized, else the first context word longer than two characters, else
a generic label, each combined with the formatted amount. -/
def extractDescriptionFromContext (context : Str) (amount : ℚ) : Str :=
  match descriptionKeywords.find? (fun kw => containsSub context kw) with
  | some kw => capitalizeJs kw ++ lit " - R$ " ++ toFixed2 amount
  | none =>
    match (jsWords (jsTrim context)).filter (fun w => 2 < w.length) with
    | w :: _ => capitalizeJs w ++ lit " - R$ " ++ toFixed2 amount
    | [] => lit "Gasto - R$ " ++ toFixed2 amount

/-- The ordered category-to-keywords table of `categorizeByKeywords`. -/
def categoryKeywords : List (Str × List Str) :=
  [(lit "alimentação",
    [lit "comida", lit "almoço", lit "jantar", lit "lanche", lit "restaurante", lit "padaria"]),
   (lit "transporte",
    [lit "uber", lit "taxi", lit "ônibus", lit "metro", lit "gasolina",
     lit "combustível", lit "estacionamento"]),
   (lit "saúde",
    [lit "médico", lit "hospital", lit "clínica", lit "exame", lit "consulta", lit "medicamento"]),
   (lit "educação",
    [lit "curso", lit "livro", lit "escola", lit "universidade", lit "material"]),
   (lit "lazer",
    [lit "cinema", lit "teatro", lit "show", lit "festa", lit "viagem", lit "hotel"]),
   (lit "moradia",
    [lit "aluguel", lit "condomínio", lit "luz", lit "água", lit "gás", lit "internet"]),
   (lit "vestuário",
    [lit "roupa", lit "calçado", lit "loja", lit "shopping"]),
   (lit "serviços",
    [lit "manutenção", lit "reparo", lit "serviço", lit "conserto"]),
   (lit "supermercado",
    [lit "supermercado", lit "mercado", lit "açougue", lit "padaria"])]

/-- Models `categorizeByKeywords`: the first category in table order one
of whose keywords occurs in the lower-cased text, defaulting to the
generic label. -/
def categorizeByKeywords (text : Str) : Str :=
  let textLower := jsToLower text
  match categoryKeywords.find? (fun p => p.2.any (fun kw => containsSub textLower kw)) with
  | some p => p.1
  | none => lit "outros"

/-- Models `fallbackExtraction`: scans money matches left to right and
keeps a candidate with fixed confidence 0.4 for each positive parsed
amount, deriving description and category from the surrounding text. -/
def fallbackExtraction (text : Str) : List Candidate :=
  let scanned := scanMoney text
  scanned.2.enum.filterMap (fun im =>
    match jsParseFloat (cleanMoneyMatch im.2) with
    | none => none
    | some amount =>
      if 0 < amount then
        let contextBefore := scanned.1.getD im.1 []
        let contextAfter := scanned.1.getD (im.1 + 1) []
        let fullContext := jsToLower (contextBefore ++ ' ' :: contextAfter)
        some { description := Json.str (extractDescriptionFromContext fullContext amount)
               amount := amount
               category := Json.str (categorizeByKeywords fullContext)
               currency := Json.str (lit "BRL")
               confidence := some (2 / 5) }
      else none)

/-- Models `calculateConfidence`: 0 for an empty list, otherwise the mean
confidence times 100, `Math.round`ed, divided by 100. -/
def calculateConfidence (expenses : List Candidate) : Option ℚ :=
  if expenses.length == 0 then some 0
  else
    let avg := jsDivN (expenses.foldl (fun s e => jsAddN s e.confidence) (some 0))
      (some (expenses.length : ℚ))
    (jsRoundN (avg.map (· * 100))).map (· / 100)

/-- Models SameValueZero as used by `Set`: structural on primitives; two
array or object values compare by reference and all composite values
reaching the summary come from distinct freshly-parsed allocations, hence
compare unequal. -/
def jsSameValueZero : Json → Json → Bool
  | Json.null, Json.null => true
  | Json.bool a, Json.bool b => a == b
  | Json.num a, Json.num b => a == b
  | Json.str a, Json.str b => a == b
  | _, _ => false

/-- Fuelled first-occurrence deduplication, modelling
`[...new Set(list)]` (insertion order, first occurrence kept). -/
def jsSetDedupF : Nat → List Json → List Json
  | 0, _ => []
  | _ + 1, [] => []
  | fuel + 1, a :: t => a :: jsSetDedupF fuel (t.filter (fun b => !(jsSameValueZero a b)))

/-- First-occurrence deduplication of a list of JSON values. -/
def jsSetDedup (l : List Json) : List Json := jsSetDedupF (l.length + 1) l

/-- The summary assembled by `execute`. -/
structure ExtractionSummary where
  totalExpenses : ℕ
  totalAmount : ℚ
  categories : List Json

/-- The data payload of a successful `execute`. -/
structure ExpenseExtractorResult where
  expenses : List Candidate
  summary : ExtractionSummary
  confidence : Option ℚ

/-- Result of `ExpenseExtractorAgent.execute`. -/
structure AgentResult where
  success : Bool
  data : Option ExpenseExtractorResult
  error : Option Str

/-- Models `extractExpensesWithLLM`: the provider outcome is `none` when
`generate` threw and `some response` otherwise; any provider or parse
failure falls back to heuristic extraction. -/
def extractExpensesWithLLM (providerResponse : Option Str) (text : Str) : List Candidate :=
  match providerResponse with
  | none => fallbackExtraction text
  | some response =>
    match parseModelExpenses response with
    | some extracted => extracted
    | none => fallbackExtraction text

/-- Models `ExpenseExtractorAgent.execute`: extracts candidates, then
recomputes the summary and the aggregate confidence from them; the body
is exception-free, so the result is always a success (timestamps and
session metadata are outside the model). -/
def execute (providerResponse : Option Str) (text : Str) : AgentResult :=
  let extractedExpenses := extractExpensesWithLLM providerResponse text
  { success := true
    data := some
      { expenses := extractedExpenses
        summary :=
          { totalExpenses := extractedExpenses.length
            totalAmount := extractedExpenses.foldl (fun sum e => sum + e.amount) 0
            categories := jsSetDedup (extractedExpenses.map (·.category)) }
        confidence := calculateConfidence extractedExpenses }
    error := none }

/-- Models the per-candidate persistence attempt of
`AgentService.extractExpenses` (strict `normalizeExpenseCategory` gate
followed by `ExpenseService.createExpense` validation); any throw is
caught and the candidate skipped (`none`). -/
def persistExpense (c : Candidate) : Option Candidate :=
  match c.category with
  | Json.str cat =>
    (match normalizeExpenseCategory cat with
     | Except.error _ => none
     | Except.ok normalizedCategory =>
       match c.description with
       | Json.str d =>
         if jsTrim d = [] then none
         else if ¬ (0 < c.amount) then none
         else if ¬ (isValidExpenseCategory normalizedCategory = true) then none
         else
           match c.currency with
           | Json.str cur =>
             if jsTrim cur = [] then none
             else some
               { description := Json.str d
                 amount := c.amount
                 category := Json.str normalizedCategory
                 currency := Json.str cur
                 confidence := c.confidence }
           | _ => none
       | _ => none)
  | _ => none

/-- Response of `AgentService.extractExpenses`. -/
structure AgentResponse where
  success : Bool
  message : Str
  expenses : List Candidate
  summary : ExtractionSummary
  confidence : Option ℚ

/-- Models `AgentService.extractExpenses`: rejects empty or
whitespace-only text with a `ValidationError`, runs the agent (whose
result always carries data), persists best-effort, and reports success. -/
def extractExpenses (providerResponse : Option Str) (text : Str) :
    Except JsError AgentResponse :=
  if jsTrim text = [] then
    Except.error ⟨JsErrorKind.validationError, lit "Text input is required and cannot be empty"⟩
  else
    let result := execute providerResponse text
    match result.data with
    | none => Except.error ⟨JsErrorKind.genericError, lit "Failed to extract expenses"⟩
    | some data =>
      Except.ok
        { success := true
          message := lit "Expenses extracted and persisted successfully"
          expenses := data.expenses.filterMap persistExpense
          summary := data.summary
          confidence := data.confidence }

/-- String contents of a JSON string value, for stating per-field facts
without a decidable equality on `Json`. -/
def jsStrVal : Json → Str
  | Json.str s => s
  | _ => []

/-- Whether a parse result is an object carrying an `expenses` array. -/
def hasExpensesArray (r : Option Json) : Bool :=
  match r with
  | some j => (getExpenses j).isSome
  | none => false

/-- Whether a JSON value is `null`. -/
def isNullJson : Json → Bool
  | Json.null => true
  | _ => false

/-- Whether a string parses as a JSON object with an `expenses` array of
non-null elements, i.e. the model response is well formed for the model
path. -/
def modelResponseParses (s : Str) : Bool :=
  match jsonParse s with
  | some j =>
    (match getExpenses j with
     | some elems => elems.all (fun e => !(isNullJson e))
     | none => false)
  | none => false

/-- The model response of the coercion scenario of the specification. -/
def c3Response : Str :=
  lit "\x7b\"expenses\":[\x7b\"description\":\"Coffee\",\"amount\":\"5.5\",\"category\":\"restaurante\",\"currency\":\"BRL\",\"confidence\":1.4\x7d]\x7d"

/-- A model response whose amount is unparsable. -/
def c2Response : Str :=
  lit "\x7b\"expenses\":[\x7b\"description\":\"x\",\"amount\":\"abc\"\x7d]\x7d"

/-- A well-formed expenses object without code fences. -/
def c7Body : Str := lit "\x7b\"expenses\":[]\x7d"

/-- The same object wrapped in bare (non-json-tagged) code fences. -/
def c7Fenced : Str := lit "```\n\x7b\"expenses\":[]\x7d\n```"

/-- Wraps a body in the `json`-tagged code fences the agent strips. -/
def fenceWrap (body : Str) : Str := lit "```json\n" ++ body ++ lit "\n```"

/-- The extraction payload produced for an input with no money matches. -/
def emptyResult : ExpenseExtractorResult :=
  { expenses := []
    summary := { totalExpenses := 0, totalAmount := 0, categories := [] }
    confidence := some 0 }

/-- Helper: a prefix check succeeds on the prefix's own extension. -/
theorem strStarts_append (pre rest : Str) : strStarts pre (pre ++ rest) = true := by
  induction pre with
  | nil => rfl
  | cons c t ih => simp [strStarts, ih]

/-- Helper: `dropWhile` never lengthens a list. -/
theorem dropWhile_length_le (p : Char → Bool) (l : Str) :
    (l.dropWhile p).length ≤ l.length := by
  induction l with
  | nil => simp
  | cons c t ih =>
    rw [List.dropWhile_cons]
    split
    · exact Nat.le_succ_of_le ih
    · exact Nat.le_refl _

/-- Helper: a list fixed by `dropWhile` has a head that fails the
predicate. -/
theorem dropWhile_head_false {p : Char → Bool} {c : Char} {t : Str}
    (h : (c :: t).dropWhile p = c :: t) : p c = false := by
  by_cases hp : p c = true
  · rw [List.dropWhile_cons_of_pos hp] at h
    have hlen := congrArg List.length h
    simp only [List.length_cons] at hlen
    have h2 := dropWhile_length_le p t
    omega
  · simpa using hp

/-- C1: `AgentService.extractExpenses` fails with a `ValidationError`
exactly when the input text is empty or whitespace-only, and for every
other text it returns a result with `success = true`, whatever the
provider did — provider and parse failures are downgraded to the
heuristic fallback inside the agent. -/
theorem extractExpenses_empty_validation_nonempty_success (p : Option Str) (t : Str) :
    (jsTrim t = [] →
      ∃ e, extractExpenses p t = Except.error e ∧ e.kind = JsErrorKind.validationError) ∧
    (jsTrim t ≠ [] →
      ∃ r, extractExpenses p t = Except.ok r ∧ r.success = true) := by
  constructor
  · intro h
    unfold extractExpenses
    rw [if_pos h]
    exact ⟨_, rfl, rfl⟩
  · intro h
    unfold extractExpenses
    rw [if_neg h]
    exact ⟨_, rfl, rfl⟩

/-- Witness for C1 at an empty and at a non-empty concrete text. -/
theorem extractExpenses_empty_validation_nonempty_success_witness :
    (∃ e, extractExpenses none (lit "   ") = Except.error e ∧
      e.kind = JsErrorKind.validationError) ∧
    (∃ r, extractExpenses none (lit "uber 20") = Except.ok r ∧ r.success = true) :=
  ⟨(extractExpenses_empty_validation_nonempty_success none (lit "   ")).1 (by decide),
   (extractExpenses_empty_validation_nonempty_success none (lit "uber 20")).2 (by decide)⟩

/-- Helper: folding `jsAddN` over candidates with all-numeric confidences
accumulates their sum. -/
theorem foldl_addN_confidence (l : List Candidate) (qs : List ℚ) (a : ℚ)
    (h : l.map (·.confidence) = qs.map some) :
    l.foldl (fun s e => jsAddN s e.confidence) (some a) = some (a + qs.sum) := by
  induction l generalizing qs a with
  | nil =>
    cases qs with
    | nil => simp
    | cons q qt => simp at h
  | cons c ct ih =>
    cases qs with
    | nil => simp at h
    | cons q qt =>
      simp only [List.map_cons, List.cons.injEq] at h
      obtain ⟨h1, h2⟩ := h
      simp only [List.foldl_cons, h1]
      rw [show jsAddN (some a) (some q) = some (a + q) from rfl, ih qt (a + q) h2,
        List.sum_cons, add_assoc]

/-- C4: `calculateConfidence` is 0 on the empty list and otherwise the
arithmetic mean of the confidences rounded to two decimal places; in
particular two candidates at 0.8 and 0.4 score 0.6. -/
theorem calculateConfidence_mean_rounded :
    calculateConfidence [] = some 0 ∧
    (∀ (l : List Candidate) (qs : List ℚ), l.map (·.confidence) = qs.map some → l ≠ [] →
      calculateConfidence l =
        some (((Int.floor ((qs.sum / (l.length : ℚ)) * 100 + 1 / 2) : ℤ) : ℚ) / 100)) ∧
    (∀ c1 c2 : Candidate, c1.confidence = some (4 / 5) → c2.confidence = some (2 / 5) →
      calculateConfidence [c1, c2] = some (3 / 5)) := by
  refine ⟨rfl, ?_, ?_⟩
  · intro l qs h hne
    have hlen : ¬ ((l.length == 0) = true) := by
      cases l with
      | nil => exact absurd rfl hne
      | cons c t => simp
    unfold calculateConfidence
    rw [if_neg hlen, foldl_addN_confidence l qs 0 h]
    simp only [jsDivN, jsRoundN, Option.map, zero_add]
  · intro c1 c2 h1 h2
    have hs := foldl_addN_confidence [c1, c2] [4 / 5, 2 / 5] 0 (by simp [h1, h2])
    unfold calculateConfidence
    rw [if_neg (by simp), hs, show [c1, c2].length = 2 from rfl]
    decide

/-- Witness for C4 at concrete candidate lists. -/
theorem calculateConfidence_mean_rounded_witness :
    calculateConfidence
      [Candidate.mk Json.null 0 Json.null Json.null (some (4 / 5)),
       Candidate.mk Json.null 0 Json.null Json.null (some (2 / 5))] = some (3 / 5) ∧
    calculateConfidence [Candidate.mk Json.null 0 Json.null Json.null (some (1 / 2))] =
      some (((Int.floor ((([(1 : ℚ) / 2].sum /
        (([Candidate.mk Json.null 0 Json.null Json.null (some (1 / 2))].length : ℕ) : ℚ)) * 100 +
          1 / 2)) : ℤ) : ℚ) / 100) :=
  ⟨calculateConfidence_mean_rounded.2.2 _ _ rfl rfl,
   calculateConfidence_mean_rounded.2.1 _ [1 / 2] rfl (List.cons_ne_nil _ _)⟩

/-- C5: on "almoço 35,50 e uber 20" the fallback extractor returns exactly
two candidates in left-to-right order — amounts 35.50 and 20, categories
"alimentação" and "transporte", confidence 0.4 each — and the derived
summary has totalAmount 55.50 and totalExpenses 2. -/
theorem fallback_scenario_almoco_uber :
    (fallbackExtraction (lit "almoço 35,50 e uber 20")).map (·.amount) = [71 / 2, 20] ∧
    (fallbackExtraction (lit "almoço 35,50 e uber 20")).map (fun c => jsStrVal c.category) =
      [lit "alimentação", lit "transporte"] ∧
    (fallbackExtraction (lit "almoço 35,50 e uber 20")).map (·.confidence) =
      [some (2 / 5), some (2 / 5)] ∧
    (execute none (lit "almoço 35,50 e uber 20")).data.map (·.summary.totalAmount) =
      some (111 / 2) ∧
    (execute none (lit "almoço 35,50 e uber 20")).data.map (·.summary.totalExpenses) =
      some 2 := by
  decide

/-- Counterexample to C6 as stated: `normalizeExpenseCategory` rejects an
invalid label with a plain `Error` (generic kind), not with the
`ValidationError` class. -/
theorem normalize_category_error_class_counterexample :
    errKindOf (normalizeExpenseCategory (lit "invalid-category")) =
      some JsErrorKind.genericError ∧
    errKindOf (normalizeExpenseCategory (lit "invalid-category")) ≠
      some JsErrorKind.validationError := by
  decide

/-- C6 amended: `normalizeExpenseCategory` lower-cases and trims and
returns the canonical member when that form is in the vocabulary (hence
case/whitespace variants of a valid label agree and the function is
idempotent on valid labels), and otherwise fails with a plain `Error`
(not a `ValidationError`) whose message names the rejected value and
lists all valid categories. -/
theorem normalize_category_amended :
    (∀ s, isValidExpenseCategory (jsTrim (jsToLower s)) = true →
      normalizeExpenseCategory s = Except.ok (jsTrim (jsToLower s))) ∧
    (∀ s, isValidExpenseCategory (jsTrim (jsToLower s)) = false →
      normalizeExpenseCategory s = Except.error
        ⟨JsErrorKind.genericError,
         lit "Categoria inválida: \"" ++ s ++ lit "\". Categorias válidas: " ++
           joinSep (lit ", ") VALID_EXPENSE_CATEGORIES⟩) ∧
    (∀ c ∈ VALID_EXPENSE_CATEGORIES, normalizeExpenseCategory c = Except.ok c) ∧
    normalizeExpenseCategory (lit " Alimentação ") = Except.ok (lit "alimentação") ∧
    normalizeExpenseCategory (lit "ALIMENTAÇÃO") = Except.ok (lit "alimentação") := by
  refine ⟨?_, ?_, ?_, rfl, rfl⟩
  · intro s h
    unfold normalizeExpenseCategory
    rw [if_pos h]
  · intro s h
    unfold normalizeExpenseCategory
    rw [if_neg (by simp [h])]
  · intro c hc
    fin_cases hc <;> rfl

/-- Witness for C6 amended at concrete labels. -/
theorem normalize_category_amended_witness :
    normalizeExpenseCategory (lit "Lazer") =
      Except.ok (jsTrim (jsToLower (lit "Lazer"))) ∧
    normalizeExpenseCategory (lit "outros") = Except.ok (lit "outros") ∧
    normalizeExpenseCategory (lit "xyz") = Except.error
      ⟨JsErrorKind.genericError,
       lit "Categoria inválida: \"" ++ lit "xyz" ++ lit "\". Categorias válidas: " ++
         joinSep (lit ", ") VALID_EXPENSE_CATEGORIES⟩ :=
  ⟨normalize_category_amended.1 (lit "Lazer") (by decide),
   normalize_category_amended.2.2.1 (lit "outros") (by decide),
   normalize_category_amended.2.1 (lit "xyz") (by decide)⟩

/-- C10: on the model-response coercion path a falsy confidence value —
absent, `null`, or the number 0 — is replaced by the default 0.8, not
kept. -/
theorem coerce_confidence_falsy_default (fs : List (Str × Json)) :
    jsGet fs (lit "confidence") = none ∨ jsGet fs (lit "confidence") = some Json.null ∨
      jsGet fs (lit "confidence") = some (Json.num 0) →
    (coerceFields fs).confidence = some (4 / 5) := by
  intro h
  have hc : (coerceFields fs).confidence = coerceConfidence (jsGet fs (lit "confidence")) := rfl
  rcases h with h | h | h <;> rw [hc, h] <;> decide

/-- Witness for C10 at a present-but-zero confidence field. -/
theorem coerce_confidence_falsy_default_witness :
    (coerceFields [(lit "confidence", Json.num 0)]).confidence = some (4 / 5) :=
  coerce_confidence_falsy_default _ (Or.inr (Or.inr rfl))

/-- C3: on the model-response coercion path, a string amount is coerced by
numeric parse with default 0 when unparsable, category defaults to
"outros" and currency to "BRL" when absent, confidence defaults to 0.8
when absent and a numeric confidence is clamped into [0,1]; in
particular the published scenario (amount "5.5", confidence 1.4) coerces
to amount 5.5 and confidence 1.0. -/
theorem coerce_candidate_fields :
    (∀ (fs : List (Str × Json)) (s : Str), jsGet fs (lit "amount") = some (Json.str s) →
      (coerceFields fs).amount = (jsParseFloat s).getD 0) ∧
    (∀ fs, jsGet fs (lit "category") = none →
      (coerceFields fs).category = Json.str (lit "outros")) ∧
    (∀ fs, jsGet fs (lit "currency") = none →
      (coerceFields fs).currency = Json.str (lit "BRL")) ∧
    (∀ fs, jsGet fs (lit "confidence") = none →
      (coerceFields fs).confidence = some (4 / 5)) ∧
    (∀ (fs : List (Str × Json)) (q : ℚ), jsGet fs (lit "confidence") = some (Json.num q) →
      ∃ c, (coerceFields fs).confidence = some c ∧ 0 ≤ c ∧ c ≤ 1) ∧
    ((parseModelExpenses c3Response).map (fun l => l.map (·.amount)) = some [11 / 2] ∧
     (parseModelExpenses c3Response).map (fun l => l.map (·.confidence)) = some [some 1]) := by
  refine ⟨?_, ?_, ?_, ?_, ?_, by decide⟩
  · intro fs s h
    have ha : (coerceFields fs).amount = coerceAmount (jsGet fs (lit "amount")) := rfl
    rw [ha, h]
    show (match jsParseFloat s with | some q => q | none => 0) = (jsParseFloat s).getD 0
    cases hp : jsParseFloat s <;> rfl
  · intro fs h
    have hc : (coerceFields fs).category = jsOr (jsGet fs (lit "category")) (Json.str (lit "outros")) := rfl
    rw [hc, h]
    rfl
  · intro fs h
    have hc : (coerceFields fs).currency = jsOr (jsGet fs (lit "currency")) (Json.str (lit "BRL")) := rfl
    rw [hc, h]
    rfl
  · intro fs h
    have hc : (coerceFields fs).confidence = coerceConfidence (jsGet fs (lit "confidence")) := rfl
    rw [hc, h]
    decide
  · intro fs q h
    have hc : (coerceFields fs).confidence = coerceConfidence (jsGet fs (lit "confidence")) := rfl
    rw [hc, h]
    by_cases hq : q = 0
    · subst hq
      exact ⟨4 / 5, by decide, by norm_num, by norm_num⟩
    · have hb : (q == 0) = false := beq_eq_false_iff_ne.mpr hq
      refine ⟨min (max q 0) 1, ?_, le_min (le_max_right q 0) zero_le_one, min_le_right _ _⟩
      simp [coerceConfidence, jsOr, jsTruthy, hb, jsToNumber, jsMaxN, jsMinN]

/-- Helper: every candidate kept by the fallback extractor has a positive
amount, a category computed by `categorizeByKeywords` on some context,
and the fixed confidence 0.4. -/
theorem fallback_shape {t : Str} {c : Candidate} (h : c ∈ fallbackExtraction t) :
    0 < c.amount ∧ (∃ ctx, c.category = Json.str (categorizeByKeywords ctx)) ∧
    c.confidence = some (2 / 5) := by
  simp only [fallbackExtraction, List.mem_filterMap] at h
  obtain ⟨im, -, hf⟩ := h
  split at hf
  · exact absurd hf (by simp)
  · rename_i amount hp
    split at hf
    · rename_i hlt
      cases hf
      exact ⟨hlt, ⟨_, rfl⟩, rfl⟩
    · exact absurd hf (by simp)

/-- Counterexample to C2 as stated: a model response whose amount is the
unparsable string "abc" yields a kept candidate with amount 0, which is
also counted by the summary. -/
theorem model_path_nonpositive_amount_counterexample :
    (execute (some c2Response) (lit "hello")).data.map
      (fun d => d.expenses.map (·.amount)) = some [0] ∧
    (execute (some c2Response) (lit "hello")).data.map (·.summary.totalExpenses) = some 1 := by
  decide

/-- C2 amended: every candidate produced by the fallback path has a
positive amount (the model-coercion path instead defaults unparsable
amounts to 0 and keeps them). -/
theorem fallback_amount_positive_amended (t : Str) (c : Candidate)
    (h : c ∈ fallbackExtraction t) : 0 < c.amount :=
  (fallback_shape h).1

/-- Witness for C2 amended at a concrete fallback candidate. -/
theorem fallback_amount_positive_amended_witness :
    0 < ((fallbackExtraction (lit "uber 20")).get ⟨0, by decide⟩).amount :=
  fallback_amount_positive_amended _ _ (List.get_mem _ _ _)

/-- Helper: `categorizeByKeywords` always lands in the closed category
vocabulary. -/
theorem categorize_keywords_valid (ctx : Str) :
    isValidExpenseCategory (categorizeByKeywords ctx) = true := by
  simp only [categorizeByKeywords]
  cases hf : categoryKeywords.find?
      (fun p => p.2.any (fun kw => containsSub (jsToLower ctx) kw)) with
  | none => decide
  | some p =>
    have hmem := List.mem_of_find?_eq_some hf
    fin_cases hmem <;> decide

/-- C9: every candidate produced by the fallback extractor carries a
category string that is a member of the closed vocabulary, so the strict
normalization gate never rejects a fallback-produced candidate. -/
theorem fallback_category_in_vocabulary (t : Str) (c : Candidate)
    (h : c ∈ fallbackExtraction t) :
    ∃ s, c.category = Json.str s ∧ isValidExpenseCategory s = true := by
  obtain ⟨-, ⟨ctx, hcat⟩, -⟩ := fallback_shape h
  exact ⟨categorizeByKeywords ctx, hcat, categorize_keywords_valid ctx⟩

/-- Witness for C9 at a concrete fallback candidate. -/
theorem fallback_category_in_vocabulary_witness :
    ∃ s, ((fallbackExtraction (lit "uber 20")).get ⟨0, by decide⟩).category = Json.str s ∧
      isValidExpenseCategory s = true :=
  fallback_category_in_vocabulary _ _ (List.get_mem _ _ _)

/-- Helper: the fuelled set-deduplication returns a sublist of its input. -/
theorem jsSetDedupF_sublist (fuel : ℕ) :
    ∀ l : List Json, l.length < fuel → (jsSetDedupF fuel l).Sublist l := by
  induction fuel with
  | zero => intro l h; omega
  | succ n ih =>
    intro l h
    cases l with
    | nil => simp [jsSetDedupF]
    | cons a t =>
      simp only [jsSetDedupF]
      refine List.Sublist.cons₂ a ?_
      have hle := List.length_filter_le (fun b => !(jsSameValueZero a b)) t
      have hlen : (t.filter (fun b => !(jsSameValueZero a b))).length < n := by
        simp only [List.length_cons] at h
        omega
      exact (ih _ hlen).trans (List.filter_sublist t)

/-- Helper: the fuelled set-deduplication contains no two elements equal
under SameValueZero. -/
theorem jsSetDedupF_pairwise (fuel : ℕ) :
    ∀ l : List Json, l.length < fuel →
      List.Pairwise (fun a b => jsSameValueZero a b = false) (jsSetDedupF fuel l) := by
  induction fuel with
  | zero => intro l h; omega
  | succ n ih =>
    intro l h
    cases l with
    | nil => simp [jsSetDedupF]
    | cons a t =>
      simp only [jsSetDedupF, List.pairwise_cons]
      have hle := List.length_filter_le (fun b => !(jsSameValueZero a b)) t
      have hlen : (t.filter (fun b => !(jsSameValueZero a b))).length < n := by
        simp only [List.length_cons] at h
        omega
      refine ⟨?_, ih _ hlen⟩
      intro b hb
      have hbf : b ∈ t.filter (fun x => !(jsSameValueZero a x)) :=
        (jsSetDedupF_sublist n _ hlen).subset hb
      simpa using List.of_mem_filter hbf

/-- Helper: `jsSetDedup` returns a sublist (original first-occurrence
order). -/
theorem jsSetDedup_sublist (l : List Json) : (jsSetDedup l).Sublist l :=
  jsSetDedupF_sublist _ l (Nat.lt_succ_self _)

/-- Helper: `jsSetDedup` holds no SameValueZero-duplicates. -/
theorem jsSetDedup_pairwise (l : List Json) :
    List.Pairwise (fun a b => jsSameValueZero a b = false) (jsSetDedup l) :=
  jsSetDedupF_pairwise _ l (Nat.lt_succ_self _)

/-- Helper: the summary's amount fold is the sum of the amounts. -/
theorem foldl_add_amount (l : List Candidate) (a : ℚ) :
    l.foldl (fun sum e => sum + e.amount) a = a + (l.map (·.amount)).sum := by
  induction l generalizing a with
  | nil => simp
  | cons c t ih => simp [ih, add_assoc]

/-- C8: for every extraction result, the summary's totalExpenses is the
candidate count, totalAmount is the sum of the candidate amounts, and
categories is the first-occurrence deduplication of the candidates'
categories (duplicate-free and in candidate order) — the summary is
recomputed from the candidate list. -/
theorem execute_summary_consistent (p : Option Str) (t : Str) (d : ExpenseExtractorResult)
    (h : (execute p t).data = some d) :
    d.summary.totalExpenses = d.expenses.length ∧
    d.summary.totalAmount = (d.expenses.map (·.amount)).sum ∧
    d.summary.categories = jsSetDedup (d.expenses.map (·.category)) ∧
    List.Pairwise (fun a b => jsSameValueZero a b = false) d.summary.categories ∧
    d.summary.categories.Sublist (d.expenses.map (·.category)) := by
  have h'' := Option.some.inj h
  subst h''
  refine ⟨rfl, ?_, rfl, jsSetDedup_pairwise _, jsSetDedup_sublist _⟩
  rw [foldl_add_amount, zero_add]

/-- Witness for C8 on the empty input with no provider. -/
theorem execute_summary_consistent_witness :
    emptyResult.summary.totalExpenses = emptyResult.expenses.length ∧
    emptyResult.summary.totalAmount = (emptyResult.expenses.map (·.amount)).sum ∧
    emptyResult.summary.categories = jsSetDedup (emptyResult.expenses.map (·.category)) ∧
    List.Pairwise (fun a b => jsSameValueZero a b = false) emptyResult.summary.categories ∧
    emptyResult.summary.categories.Sublist (emptyResult.expenses.map (·.category)) :=
  execute_summary_consistent none (lit "") emptyResult rfl

/-- Counterexample to C7 as stated: a response wrapped in bare
triple-backtick fences (without the `json` tag) holds a valid JSON object
with an `expenses` array, yet the leading fence is not stripped and the
model path fails, routing to the fallback. -/
theorem bare_fence_not_stripped_counterexample :
    hasExpensesArray (jsonParse c7Body) = true ∧
    (parseModelExpenses c7Fenced).isNone = true := by
  decide

/-- Helper: a string fixed by `dropWhile isWs` on both ends is fixed by
`trim`. -/
theorem jsTrim_eq_self {s : Str} (h1 : s.dropWhile isWs = s)
    (h2 : s.reverse.dropWhile isWs = s.reverse) : jsTrim s = s := by
  unfold jsTrim
  rw [h1, h2, List.reverse_reverse]

/-- Helper: coercion of the expenses array succeeds when no element is
`null`. -/
theorem coerceAll_isSome_of_no_null (elems : List Json)
    (h : elems.all (fun e => !(isNullJson e)) = true) :
    (coerceAll elems).isSome = true := by
  induction elems with
  | nil => rfl
  | cons e t ih =>
    simp only [List.all_cons, Bool.and_eq_true] at h
    obtain ⟨he, ht⟩ := h
    have htt := ih ht
    cases hca : coerceAll t with
    | none => rw [hca] at htt; simp at htt
    | some cs =>
      cases e with
      | null => simp [isNullJson] at he
      | bool b => simp [coerceAll, elementFields, hca]
      | num q => simp [coerceAll, elementFields, hca]
      | str s => simp [coerceAll, elementFields, hca]
      | arr es => simp [coerceAll, elementFields, hca]
      | obj fs => simp [coerceAll, elementFields, hca]

/-- Helper: the two fence-stripping replacements recover the body of a
`json`-fenced response whose body has non-whitespace ends. -/
theorem stripFences_fenceWrap (b : Char) (bt : Str) (hb : isWs b = false)
    (h2 : (b :: bt).reverse.dropWhile isWs = (b :: bt).reverse) :
    stripTrailingFence (stripLeadingFence (jsTrim (fenceWrap (b :: bt)))) = b :: bt := by
  have htrim : jsTrim (fenceWrap (b :: bt)) = fenceWrap (b :: bt) := by
    apply jsTrim_eq_self
    · show List.dropWhile isWs ('`' :: ((lit "``json\n" ++ (b :: bt)) ++ lit "\n```")) =
        '`' :: ((lit "``json\n" ++ (b :: bt)) ++ lit "\n```")
      exact List.dropWhile_cons_of_neg (by decide)
    · have hrev : (fenceWrap (b :: bt)).reverse =
          '`' :: '`' :: '`' :: '\n' :: ((b :: bt).reverse ++ (lit "```json\n").reverse) := by
        show ((lit "```json\n" ++ (b :: bt)) ++ lit "\n```").reverse = _
        rw [List.reverse_append, List.reverse_append]
        rfl
      rw [hrev]
      exact List.dropWhile_cons_of_neg (by decide)
  have hlead : stripLeadingFence (fenceWrap (b :: bt)) = (b :: bt) ++ lit "\n```" := by
    unfold stripLeadingFence
    rw [if_pos (show strStarts (lit "```json") (fenceWrap (b :: bt)) = true from
      strStarts_append (lit "```json") ('\n' :: ((b :: bt) ++ lit "\n```")))]
    rw [show fenceWrap (b :: bt) =
      lit "```json" ++ ('\n' :: ((b :: bt) ++ lit "\n```")) from rfl]
    rw [show (7 : ℕ) = (lit "```json").length from rfl, List.drop_left]
    rw [List.dropWhile_cons_of_pos (by decide)]
    show List.dropWhile isWs (b :: (bt ++ lit "\n```")) = b :: (bt ++ lit "\n```")
    exact List.dropWhile_cons_of_neg (by simp [hb])
  have htail : stripTrailingFence ((b :: bt) ++ lit "\n```") = b :: bt := by
    have hrev2 : ((b :: bt) ++ lit "\n```").reverse =
        '`' :: '`' :: '`' :: '\n' :: (b :: bt).reverse := by
      rw [List.reverse_append]
      rfl
    simp only [stripTrailingFence]
    rw [hrev2, if_pos (show strStarts (lit "```")
      ('`' :: '`' :: '`' :: '\n' :: (b :: bt).reverse) = true from
      strStarts_append (lit "```") ('\n' :: (b :: bt).reverse))]
    show (List.dropWhile isWs ('\n' :: (b :: bt).reverse)).reverse = b :: bt
    rw [List.dropWhile_cons_of_pos (by decide), h2, List.reverse_reverse]
  rw [htrim, hlead, htail]

/-- C7 amended: a model response that is a valid JSON object with an
`expenses` array of non-null elements and wrapped in fences opening with
the literal three-backtick-json marker parses successfully on the model
path; a bare three-backtick opening fence, by contrast, is not stripped
(see the counterexample). -/
theorem json_fenced_response_parses (body : Str)
    (h1 : body.dropWhile isWs = body)
    (h2 : body.reverse.dropWhile isWs = body.reverse)
    (h3 : body ≠ [])
    (h4 : modelResponseParses body = true) :
    (parseModelExpenses (fenceWrap body)).isSome = true := by
  obtain ⟨b, bt, rfl⟩ : ∃ b bt, body = b :: bt := by
    cases body with
    | nil => exact absurd rfl h3
    | cons b bt => exact ⟨b, bt, rfl⟩
  have hb : isWs b = false := dropWhile_head_false h1
  have hclean := stripFences_fenceWrap b bt hb h2
  simp only [parseModelExpenses]
  rw [hclean]
  simp only [modelResponseParses] at h4
  cases hj : jsonParse (b :: bt) with
  | none => rw [hj] at h4; simp at h4
  | some j =>
    simp only [hj] at h4 ⊢
    cases hg : getExpenses j with
    | none => rw [hg] at h4; simp at h4
    | some elems =>
      simp only [hg] at h4 ⊢
      exact coerceAll_isSome_of_no_null elems h4

/-- Witness for C7 amended at a concrete fenced response. -/
theorem json_fenced_response_parses_witness :
    (parseModelExpenses (fenceWrap c7Body)).isSome = true :=
  json_fenced_response_parses c7Body (by decide) (by decide) (by decide) (by decide)

/-- Witness for C3 at concrete candidate objects. -/
theorem coerce_candidate_fields_witness :
    (coerceFields [(lit "amount", Json.str (lit "abc"))]).amount =
      (jsParseFloat (lit "abc")).getD 0 ∧
    (coerceFields []).category = Json.str (lit "outros") ∧
    (coerceFields []).currency = Json.str (lit "BRL") ∧
    (coerceFields []).confidence = some (4 / 5) ∧
    (∃ c, (coerceFields [(lit "confidence", Json.num (7 / 5))]).confidence = some c ∧
      0 ≤ c ∧ c ≤ 1) :=
  ⟨coerce_candidate_fields.1 _ _ rfl,
   coerce_candidate_fields.2.1 [] rfl,
   coerce_candidate_fields.2.2.1 [] rfl,
   coerce_candidate_fields.2.2.2.1 [] rfl,
   coerce_candidate_fields.2.2.2.2.1 _ (7 / 5) rfl⟩

end FinBot
